import Mathlib

/-!
# Verification of `ripe/atlas/tools/commands/report.py`

A shallow embedding of the `report` command of the `ripe-atlas-tools`
repository, together with theorems checking the natural-language
specification against the code.

The embedding follows `src/ripe/atlas/tools/commands/report.py`:

* `AGGREGATORS` / `get_aggregators` — the aggregation-key configuration
  table and the construction of aggregator objects from user input
  (lines 30–42 and 152–167 of the source);
* `create_enhanced_sagans` — parsing raw results and attaching probe
  metadata (lines 169–198);
* `multi_level_render` — the recursive indented traversal of the
  aggregation data (lines 200–214);
* `run` — the overall pipeline with its two fatal error conditions
  (lines 108–150).

External collaborators (the sagan result parser, the probe metadata
service, the renderer, the `aggregate` driver living outside the provided
source tree) are taken as parameters of the embedded functions, so every
theorem quantifies over their behaviour.
-/

set_option autoImplicit false

namespace Report

/-! ## Data model

`Probe` mirrors the probe-metadata object (id, country code, ASNs,
prefixes, status).  `Sagan` mirrors a parsed sagan `Result` object as far
as the report command observes it: its `probe_id`, and the
`is_error` / `is_malformed` flags that `Result.get` sets when invoked with
`on_error=ACTION_IGNORE, on_malformation=ACTION_IGNORE`.  An
`EnhancedSagan` is a parsed result with its probe attached
(`sagan.probe = probes_dict[sagan.probe_id]`). -/

structure Probe where
  id : Nat
  country_code : String
  asn_v4 : Nat
  asn_v6 : Nat
  prefix_v4 : String
  prefix_v6 : String
  status : String
  deriving DecidableEq, Repr

structure Sagan where
  probe_id : Nat
  is_error : Bool
  is_malformed : Bool
  deriving DecidableEq, Repr

structure EnhancedSagan where
  sagan : Sagan
  probe : Probe
  deriving DecidableEq, Repr

/-! ## Aggregator construction (`AGGREGATORS`, `get_aggregators`)

The two aggregator classes imported from `..aggregators` are represented
by the tag `AggClass`; an `AggregatorCall` records with which keyword
arguments an aggregator class was instantiated (`ranges = none` means the
constructor was called without a `ranges` argument). -/

inductive AggClass where
  | valueKey
  | rangeKey
  deriving DecidableEq, Repr

/-- One entry of the `Command.AGGREGATORS` dict: attribute path, class,
and the optional third list element holding range boundaries. -/
structure AggSpec where
  attr : String
  cls : AggClass
  ranges : Option (List Nat)
  deriving DecidableEq, Repr

/-- The `Command.AGGREGATORS` configuration table (source lines 30–42). -/
def AGGREGATORS : List (String × AggSpec) :=
  [ ("country", ⟨"probe.country_code", .valueKey, none⟩),
    ("rtt-median", ⟨"rtt_median", .rangeKey, some [10, 20, 30, 40, 50, 100, 200, 300]⟩),
    ("status", ⟨"probe.status", .valueKey, none⟩),
    ("asn_v4", ⟨"probe.asn_v4", .valueKey, none⟩),
    ("asn_v6", ⟨"probe.asn_v6", .valueKey, none⟩),
    ("prefix_v4", ⟨"probe.prefix_v4", .valueKey, none⟩),
    ("prefix_v6", ⟨"probe.prefix_v6", .valueKey, none⟩) ]

/-- An aggregator instantiation as performed by `get_aggregators`:
which class was called, with which `key` argument, and with which
`ranges` argument (`none` when no `ranges` keyword was passed). -/
structure AggregatorCall where
  cls : AggClass
  key : String
  ranges : Option (List Nat)
  deriving DecidableEq, Repr

/-- Embedding of `Command.get_aggregators` (source lines 152–167).  For each
user-selected key it looks the entry up in `AGGREGATORS` and instantiates
the entry's class; only when the literal key equals `"rtt"` does it pass
the entry's range list as the `ranges` argument.  `none` is returned when
a key is absent from the table (the Python code would raise `KeyError`;
argparse's `choices` restricts inputs to table keys). -/
def get_aggregators (aggregate_by : List String) : Option (List AggregatorCall) :=
  aggregate_by.mapM fun aggr_key =>
    (AGGREGATORS.lookup aggr_key).map fun spec =>
      if aggr_key = "rtt" then
        ⟨spec.cls, spec.attr, spec.ranges⟩
      else
        ⟨spec.cls, spec.attr, none⟩

/-! ## Result enrichment (`create_enhanced_sagans`)

The sagan library and the probe service are external to the provided
source: `resultGet` stands for
`Result.get(result, on_error=Result.ACTION_IGNORE,
on_malformation=Result.ACTION_IGNORE)`, which with both ignore actions
always returns a `Result` object (flagging rather than raising), and
`getMany` stands for `Probe.get_many`.  Both are parameters, so the
theorems hold for every behaviour of those collaborators. -/

/-- Computation of the probe ids to resolve (source lines 186–188):
`probes = self.arguments.probes; if not probes: probes = set(...)`.
A Python set is modelled as a deduplicated list; an explicitly supplied
empty list is falsy in Python and also falls back to the collected set. -/
def resolved_probe_ids (argProbes : Option (List Nat)) (sagans : List Sagan) : List Nat :=
  match argProbes with
  | some l => if l.isEmpty then (sagans.map Sagan.probe_id).dedup else l
  | none => (sagans.map Sagan.probe_id).dedup

/-- Construction of `probes_dict` (source lines 190–192): every fetched
probe is stored under its own `id`; a later probe with the same id
shadows an earlier one, as in a Python dict. -/
def build_probes_dict (probes : List Probe) : List (Nat × Probe) :=
  probes.foldl (fun d p => (p.id, p) :: d) []

/-- The attachment loop (source lines 195–196):
`sagan.probe = probes_dict[sagan.probe_id]` for each sagan in order.
A missing key raises `KeyError(probe_id)` (a `LookupError`), modelled as
`Except.error` carrying the missing probe id. -/
def attach_probes (probes_dict : List (Nat × Probe)) :
    List Sagan → Except Nat (List EnhancedSagan)
  | [] => .ok []
  | s :: rest =>
    match probes_dict.lookup s.probe_id with
    | none => .error s.probe_id
    | some p => (attach_probes probes_dict rest).map (fun out => ⟨s, p⟩ :: out)

/-- Embedding of `Command.create_enhanced_sagans` (source lines 169–198):
parse every raw result (ignore actions, hence total), resolve the probe
id set, build the probe dict, and attach a probe to every sagan. -/
def create_enhanced_sagans {Raw : Type} (argProbes : Option (List Nat))
    (resultGet : Raw → Sagan) (getMany : List Nat → List Probe)
    (results : List Raw) : Except Nat (List EnhancedSagan) :=
  let sagans := results.map resultGet
  let probes := resolved_probe_ids argProbes sagans
  let probes_dict := build_probes_dict (getMany probes)
  attach_probes probes_dict sagans

/-- Boolean observer telling whether an enrichment outcome is the
`KeyError` case. -/
def isErrorOutcome : Except Nat (List EnhancedSagan) → Bool
  | .error _ => true
  | .ok _ => false

/-! ## Aggregation data and the hierarchical traversal

`multi_level_render` dispatches dynamically on the shape of
`aggregation_data`: a dict (grouping level), a list (leaf level), or
anything else (silently ignored).  The three shapes become the three
constructors of `AggData`; dict entries keep their insertion order. -/

mutual
inductive AggData where
  | node : AggEntries → AggData
  | leaf : List EnhancedSagan → AggData
  | other : AggData

inductive AggEntries where
  | nil : AggEntries
  | cons : String → AggData → AggEntries → AggEntries
end

/-- The leaf branch of `multi_level_render` (source lines 209–214): for
each element in order, if the renderer output is non-empty (truthy),
append `"{}{} {}".format(payload, indent, res)`; note the single space
interpolated between the indentation and the rendered result. -/
def renderLeaf (onResult : EnhancedSagan → String) (payload : String) :
    List EnhancedSagan → String → String
  | [], _ => payload
  | d :: rest, indent =>
    renderLeaf onResult
      (if onResult d = "" then payload else payload ++ indent ++ " " ++ onResult d)
      rest indent

mutual
/-- Embedding of `Command.multi_level_render` (source lines 200–214),
with the mutated `self.payload` passed explicitly: the dict branch
appends `"{}{}{}\n".format(payload, indent, k)` and recurses with
`indent + " "`, the list branch is `renderLeaf`, and any other shape
leaves the payload untouched. -/
def multi_level_render (onResult : EnhancedSagan → String) (payload : String) :
    AggData → String → String
  | .node entries, indent => renderEntries onResult payload entries indent
  | .leaf l, indent => renderLeaf onResult payload l indent
  | .other, _ => payload

/-- The dict branch of `multi_level_render`: iterate over the entries in
insertion order, emitting the label line before recursing into the
value. -/
def renderEntries (onResult : EnhancedSagan → String) (payload : String) :
    AggEntries → String → String
  | .nil, _ => payload
  | .cons k v rest, indent =>
    renderEntries onResult
      (multi_level_render onResult (payload ++ indent ++ k ++ "\n") v (indent ++ " "))
      rest indent
end

/-! ## Depth-indexed renderings used to state the traversal claims -/

/-- Indentation of `n` single-space units. -/
def spaces : Nat → String
  | 0 => ""
  | n + 1 => spaces n ++ " "

/-- Concatenation of a list of strings. -/
def strConcat : List String → String
  | [] => ""
  | s :: rest => s ++ strConcat rest

/-- Leaf rendering as the claims describe it: each element whose renderer
output is non-empty is emitted as the current indentation immediately
followed by that output (no separator); empty outputs contribute
nothing. -/
def claimedLeafRender (onResult : EnhancedSagan → String)
    (l : List EnhancedSagan) (indent : String) : String :=
  strConcat (l.map fun d => if onResult d = "" then "" else indent ++ onResult d)

/-- Leaf rendering as the code actually behaves: each element whose
renderer output is non-empty is emitted as the current indentation, one
separator space, then the output; empty outputs contribute nothing and
no newline is appended. -/
def amendedLeafRender (onResult : EnhancedSagan → String)
    (l : List EnhancedSagan) (indent : String) : String :=
  strConcat (l.map fun d => if onResult d = "" then "" else indent ++ " " ++ onResult d)

mutual
/-- Depth-indexed rendering following the claim wording: a grouping
label at depth `i` is prefixed with exactly `i` single-space units, and a
leaf-level line carries the indentation of its level (two spaces at
depth two), with the renderer output immediately after the
indentation. -/
def claimedRender (onResult : EnhancedSagan → String) : AggData → Nat → String
  | .node entries, d => claimedRenderEntries onResult entries d
  | .leaf l, d => claimedLeafRender onResult l (spaces d)
  | .other, _ => ""

/-- Entry list companion of `claimedRender`. -/
def claimedRenderEntries (onResult : EnhancedSagan → String) : AggEntries → Nat → String
  | .nil, _ => ""
  | .cons k v rest, d =>
    spaces d ++ k ++ "\n" ++ claimedRender onResult v (d + 1)
      ++ claimedRenderEntries onResult rest d
end

mutual
/-- Depth-indexed rendering matching the code: a grouping label at depth
`i` is prefixed with exactly `i` single-space units, and a leaf-level
entry carries the indentation of its level plus one additional separator
space before the renderer output. -/
def amendedRender (onResult : EnhancedSagan → String) : AggData → Nat → String
  | .node entries, d => amendedRenderEntries onResult entries d
  | .leaf l, d => amendedLeafRender onResult l (spaces d)
  | .other, _ => ""

/-- Entry list companion of `amendedRender`. -/
def amendedRenderEntries (onResult : EnhancedSagan → String) : AggEntries → Nat → String
  | .nil, _ => ""
  | .cons k v rest, d =>
    spaces d ++ k ++ "\n" ++ amendedRender onResult v (d + 1)
      ++ amendedRenderEntries onResult rest d
end

mutual
/-- Pure emission function of the traversal: the string that
`multi_level_render` appends to the payload, indexed by the indentation
string. -/
def emitData (onResult : EnhancedSagan → String) : AggData → String → String
  | .node entries, indent => emitEntries onResult entries indent
  | .leaf l, indent => amendedLeafRender onResult l indent
  | .other, _ => ""

/-- Entry list companion of `emitData`. -/
def emitEntries (onResult : EnhancedSagan → String) : AggEntries → String → String
  | .nil, _ => ""
  | .cons k v rest, indent =>
    indent ++ k ++ "\n" ++ emitData onResult v (indent ++ " ")
      ++ emitEntries onResult rest indent
end

/-! ## The `run` pipeline (source lines 108–150)

Network calls and printing are modelled as an event trace; the two
`RipeAtlasToolsException` raises become `Except.error` outcomes carrying
the exact message from the source.  The external renderer supplies
`on_start`, `on_result`, `on_finish` and the final template; the
external `aggregate` driver is a parameter applied to the aggregators
built by `get_aggregators`. -/

inductive Event where
  | fetchDetail
  | fetchResults
  | printOutput
  deriving DecidableEq, Repr

inductive RunError where
  | toolsException (msg : String)
  | keyError (key : Nat)
  | aggregatorKeyError
  deriving DecidableEq, Repr

structure RunArgs where
  measurement_id : Nat
  probes : Option (List Nat)
  aggregate_by : Option (List String)

structure RunEnv (Raw : Type) where
  measurement_exists : Bool
  description : Option String
  results : List Raw
  resultGet : Raw → Sagan
  getMany : List Nat → List Probe
  onStart : String
  onResult : EnhancedSagan → String
  onFinish : String
  aggregateFn : List AggregatorCall → List EnhancedSagan → AggData
  renderTemplate : Nat → String → String → String

/-- Selection of the data handed to `multi_level_render` (source lines
135–141): with a truthy `aggregate_by` the external `aggregate` is
applied to the aggregators from `get_aggregators`, otherwise the sagans
list itself is used. -/
def selectRenderInput (aggregate_by : Option (List String))
    (aggregateFn : List AggregatorCall → List EnhancedSagan → AggData)
    (sagans : List EnhancedSagan) : Except RunError AggData :=
  match aggregate_by with
  | none => .ok (.leaf sagans)
  | some ks =>
    if ks.isEmpty then .ok (.leaf sagans)
    else
      match get_aggregators ks with
      | none => .error .aggregatorKeyError
      | some aggs => .ok (aggregateFn aggs sagans)

/-- Embedding of `Command.run` (source lines 108–150).  The result is
the event trace, the final `self.payload`, and either the printed text
or the raised error.  `self.payload` is reset to `""` on entry; the
detail fetch happens first, the missing-measurement check aborts before
the results fetch, the empty-results check aborts before
`renderer.on_start()` touches the payload, and printing happens only at
the very end. -/
def run {Raw : Type} (args : RunArgs) (env : RunEnv Raw) :
    List Event × String × Except RunError String :=
  let events := [Event.fetchDetail]
  if env.measurement_exists = false then
    (events, "", .error (.toolsException "That measurement id does not exist"))
  else
    let events := events ++ [Event.fetchResults]
    if env.results.isEmpty then
      (events, "", .error
        (.toolsException "There aren't any results available for that measurement"))
    else
      let description :=
        match env.description with
        | none => ""
        | some d => if d = "" then "" else "\n" ++ d ++ "\n\n"
      let payload := "" ++ "\n" ++ env.onStart
      match create_enhanced_sagans args.probes env.resultGet env.getMany env.results with
      | .error k => (events, payload, .error (.keyError k))
      | .ok sagans =>
        match selectRenderInput args.aggregate_by env.aggregateFn sagans with
        | .error e => (events, payload, .error e)
        | .ok enhanced_results =>
          let payload := multi_level_render env.onResult payload enhanced_results ""
          let payload := payload ++ "\n" ++ env.onFinish
          (events ++ [Event.printOutput], payload,
            .ok (env.renderTemplate args.measurement_id description payload))

/-! ## Concrete sample data -/

def sampleProbe : Probe :=
  ⟨1, "NL", 3333, 3333, "193.0.0.0/21", "2001:67c:2e8::/48", "Connected"⟩

def sampleSagan : Sagan := ⟨1, false, false⟩

def sampleResult : EnhancedSagan := ⟨sampleSagan, sampleProbe⟩

/-- Renderer returning the fixed line `"X"` for every result. -/
def renderX : EnhancedSagan → String := fun _ => "X"

/-- The two-level tree of the specification's indentation example. -/
def sampleTree : AggData :=
  .node (.cons "NL" (.node (.cons "20" (.leaf [sampleResult]) .nil)) .nil)

/-- Concrete raw-record type standing for one opaque raw result. -/
structure RawRecord where
  probe_id : Nat
  erroring : Bool
  malformed : Bool
  deriving DecidableEq, Repr

/-- Concrete stand-in for sagan's `Result.get` with both ignore actions:
it always returns a `Result` object, copying the flags from the raw
record instead of raising. -/
def sampleResultGet : RawRecord → Sagan :=
  fun r => ⟨r.probe_id, r.erroring, r.malformed⟩

/-- Concrete stand-in for `Probe.get_many`: one probe per requested
id. -/
def sampleGetMany : List Nat → List Probe :=
  fun l => l.map fun i => ⟨i, "NL", 3333, 3333, "193.0.0.0/21", "2001:67c:2e8::/48", "Connected"⟩

/-- Stand-in for `Probe.get_many` that resolves no probe at all. -/
def emptyGetMany : List Nat → List Probe := fun _ => []

/-! ## Helper lemmas on the traversal -/

theorem renderLeaf_eq (onResult : EnhancedSagan → String) :
    ∀ (l : List EnhancedSagan) (payload indent : String),
    renderLeaf onResult payload l indent = payload ++ amendedLeafRender onResult l indent
  | [], payload, indent => by
    simp [renderLeaf, amendedLeafRender, strConcat, String.append_empty]
  | d :: rest, payload, indent => by
    by_cases h : onResult d = "" <;>
      simp [renderLeaf, amendedLeafRender, strConcat, h,
        renderLeaf_eq onResult rest, String.append_assoc, String.empty_append]

mutual
theorem multi_level_render_emit (onResult : EnhancedSagan → String) :
    ∀ (t : AggData) (payload indent : String),
    multi_level_render onResult payload t indent = payload ++ emitData onResult t indent
  | .node entries, payload, indent => by
    simp [multi_level_render, emitData, renderEntries_emit onResult entries payload indent]
  | .leaf l, payload, indent => by
    simp [multi_level_render, emitData, renderLeaf_eq onResult l payload indent]
  | .other, payload, indent => by
    simp [multi_level_render, emitData, String.append_empty]

theorem renderEntries_emit (onResult : EnhancedSagan → String) :
    ∀ (e : AggEntries) (payload indent : String),
    renderEntries onResult payload e indent = payload ++ emitEntries onResult e indent
  | .nil, payload, indent => by
    simp [renderEntries, emitEntries, String.append_empty]
  | .cons k v rest, payload, indent => by
    rw [renderEntries, multi_level_render_emit onResult v,
      renderEntries_emit onResult rest]
    simp [emitEntries, String.append_assoc]
end

mutual
theorem emitData_spaces (onResult : EnhancedSagan → String) :
    ∀ (t : AggData) (n : Nat),
    emitData onResult t (spaces n) = amendedRender onResult t n
  | .node entries, n => by
    simp [emitData, amendedRender, emitEntries_spaces onResult entries n]
  | .leaf l, n => by simp [emitData, amendedRender]
  | .other, n => by simp [emitData, amendedRender]

theorem emitEntries_spaces (onResult : EnhancedSagan → String) :
    ∀ (e : AggEntries) (n : Nat),
    emitEntries onResult e (spaces n) = amendedRenderEntries onResult e n
  | .nil, n => by simp [emitEntries, amendedRenderEntries]
  | .cons k v rest, n => by
    have hs : spaces n ++ " " = spaces (n + 1) := rfl
    rw [emitEntries, hs, emitData_spaces onResult v (n + 1),
      emitEntries_spaces onResult rest n, amendedRenderEntries]
end

/-! ## Helper lemmas on the probe dictionary and attachment loop -/

theorem lookup_id_keyed (d : List (Nat × Probe)) (h : ∀ kv ∈ d, (kv.2).id = kv.1)
    (k : Nat) (p : Probe) (hl : d.lookup k = some p) : p.id = k := by
  induction d with
  | nil => simp [List.lookup] at hl
  | cons kv es ih =>
    obtain ⟨a, b⟩ := kv
    by_cases hak : a = k
    · subst hak
      simp [List.lookup] at hl
      subst hl
      exact h (a, b) (List.mem_cons_self _ _)
    · have hbeq : (k == a) = false := by
        simp only [beq_eq_false_iff_ne]
        exact Ne.symm hak
      simp only [List.lookup, hbeq] at hl
      exact ih (fun kv hkv => h kv (List.mem_cons_of_mem _ hkv)) hl

theorem build_probes_dict_aux_id_keyed (ps : List Probe) :
    ∀ (acc : List (Nat × Probe)), (∀ kv ∈ acc, (kv.2).id = kv.1) →
    ∀ kv ∈ ps.foldl (fun d p => (p.id, p) :: d) acc, (kv.2).id = kv.1 := by
  induction ps with
  | nil => intro acc h; simpa using h
  | cons p rest ih =>
    intro acc h
    simp only [List.foldl_cons]
    refine ih _ ?_
    intro kv hkv
    rcases List.mem_cons.mp hkv with h1 | h2
    · subst h1; rfl
    · exact h kv h2

theorem build_probes_dict_id_keyed (ps : List Probe) :
    ∀ kv ∈ build_probes_dict ps, (kv.2).id = kv.1 :=
  build_probes_dict_aux_id_keyed ps [] (by simp)

theorem lookup_eq_none_iff (d : List (Nat × Probe)) (k : Nat) :
    d.lookup k = none ↔ k ∉ d.map Prod.fst := by
  induction d with
  | nil => simp [List.lookup]
  | cons kv es ih =>
    obtain ⟨a, b⟩ := kv
    by_cases hak : a = k
    · subst hak; simp [List.lookup]
    · have hbeq : (k == a) = false := by
        simp only [beq_eq_false_iff_ne]
        exact Ne.symm hak
      simp only [List.lookup, hbeq, List.map_cons, List.mem_cons]
      constructor
      · intro hn hm
        rcases hm with hm | hm
        · exact hak hm.symm
        · exact (ih.mp hn) hm
      · intro hn
        exact ih.mpr (fun hm => hn (Or.inr hm))

theorem mem_build_probes_dict_aux_keys (ps : List Probe) :
    ∀ (acc : List (Nat × Probe)) (k : Nat),
    k ∈ (ps.foldl (fun d p => (p.id, p) :: d) acc).map Prod.fst
      ↔ k ∈ acc.map Prod.fst ∨ k ∈ ps.map Probe.id := by
  induction ps with
  | nil => intro acc k; simp
  | cons p rest ih =>
    intro acc k
    simp only [List.foldl_cons]
    rw [ih]
    simp only [List.map_cons, List.mem_cons]
    tauto

theorem mem_build_probes_dict_keys (ps : List Probe) (k : Nat) :
    k ∈ (build_probes_dict ps).map Prod.fst ↔ k ∈ ps.map Probe.id := by
  rw [build_probes_dict, mem_build_probes_dict_aux_keys]
  simp

theorem attach_probes_ok (d : List (Nat × Probe)) :
    ∀ (sagans : List Sagan) (out : List EnhancedSagan),
    attach_probes d sagans = .ok out →
    out.map EnhancedSagan.sagan = sagans
      ∧ ∀ e ∈ out, d.lookup e.sagan.probe_id = some e.probe
  | [], out => by
    intro h
    rw [attach_probes] at h
    cases h
    simp
  | s :: rest, out => by
    intro h
    rw [attach_probes] at h
    cases hl : d.lookup s.probe_id with
    | none => rw [hl] at h; cases h
    | some p =>
      rw [hl] at h
      cases hr : attach_probes d rest with
      | error k => rw [hr] at h; cases h
      | ok tail =>
        rw [hr] at h
        cases h
        have ihres := attach_probes_ok d rest tail hr
        constructor
        · simp [ihres.1]
        · intro e he
          rcases List.mem_cons.mp he with h1 | h2
          · subst h1; simpa using hl
          · exact ihres.2 e h2

theorem attach_probes_error (d : List (Nat × Probe)) :
    ∀ (sagans : List Sagan), (∃ s ∈ sagans, d.lookup s.probe_id = none) →
    isErrorOutcome (attach_probes d sagans) = true
  | [], h => by simp at h
  | s :: rest, h => by
    rw [attach_probes]
    cases hl : d.lookup s.probe_id with
    | none => simp [isErrorOutcome]
    | some p =>
      obtain ⟨s', hs', hnone⟩ := h
      rcases List.mem_cons.mp hs' with h1 | h2
      · subst h1; rw [hl] at hnone; cases hnone
      · have ihres := attach_probes_error d rest ⟨s', h2, hnone⟩
        cases hr : attach_probes d rest with
        | error k => simp [Except.map, isErrorOutcome]
        | ok tail => rw [hr] at ihres; simp [isErrorOutcome] at ihres

/-! ## Further concrete data for the claims -/

def sampleArgs : RunArgs := ⟨1001, none, none⟩

def missingEnv : RunEnv RawRecord :=
  ⟨false, none, [⟨7, false, false⟩], sampleResultGet, sampleGetMany,
    "START", renderX, "FINISH", fun _ s => .leaf s, fun _ _ p => p⟩

def emptyResultsEnv : RunEnv RawRecord :=
  ⟨true, some "desc", [], sampleResultGet, sampleGetMany,
    "START", renderX, "FINISH", fun _ s => .leaf s, fun _ _ p => p⟩

/-- Raw record parsed to a malformed result (with ignore actions the
parse still yields an object, flagged `is_malformed`). -/
def malformedRaw : RawRecord := ⟨7, false, true⟩

def c3Probe : Probe :=
  ⟨7, "NL", 3333, 3333, "193.0.0.0/21", "2001:67c:2e8::/48", "Connected"⟩

def c3Out : List EnhancedSagan := [⟨⟨7, false, true⟩, c3Probe⟩]

def c6Raw : RawRecord := ⟨9, false, false⟩

def c6Probe : Probe :=
  ⟨9, "NL", 3333, 3333, "193.0.0.0/21", "2001:67c:2e8::/48", "Connected"⟩

def c6Out : List EnhancedSagan := [⟨⟨9, false, false⟩, c6Probe⟩]

/-! ## The claims -/

/-- C1: the aggregation keys configuration does carry the boundary list
`[10, 20, 30, 40, 50, 100, 200, 300]` for `"rtt-median"`, but
`get_aggregators ["rtt-median"]` constructs the `RangeKeyAggregator`
WITHOUT a `ranges` argument (`ranges = none`), because the branch that
would pass the boundaries tests the literal `"rtt"`, which never matches
any key of the table.  This evaluates the code at the failing input of
the claim. -/
theorem get_aggregators_rtt_median_without_ranges :
    get_aggregators ["rtt-median"]
      = some [⟨AggClass.rangeKey, "rtt_median", none⟩]
    ∧ (AGGREGATORS.lookup "rtt-median").map AggSpec.ranges
      = some (some [10, 20, 30, 40, 50, 100, 200, 300]) :=
  ⟨rfl, rfl⟩

/-- C2 counterexample: on the specification's own two-level example the
traversal emits the leaf line with THREE leading spaces (the leaf call's
two-space indentation plus the format string's separator space), not the
two spaces the claim states, so the payload differs from the
claim-predicted rendering. -/
theorem multi_level_render_indentation_cx :
    multi_level_render renderX "" sampleTree "" = "NL\n 20\n   X"
    ∧ claimedRender renderX sampleTree 0 = "NL\n 20\n  X"
    ∧ multi_level_render renderX "" sampleTree ""
        ≠ claimedRender renderX sampleTree 0 :=
  ⟨by decide, by decide, by decide⟩

/-- C2 (amended): starting from any payload and an indentation of `n`
spaces, the traversal emits every grouping label at depth `i` prefixed
with exactly `n + i` single-space units, and every leaf-level entry
prefixed with the indentation of its level plus ONE additional separator
space (so the two-level example's leaf line carries three spaces, not
two). -/
theorem multi_level_render_indentation_amended (onResult : EnhancedSagan → String)
    (t : AggData) (payload : String) (n : Nat) :
    multi_level_render onResult payload t (spaces n)
      = payload ++ amendedRender onResult t n := by
  rw [multi_level_render_emit onResult t payload (spaces n),
    emitData_spaces onResult t n]

/-- C3 counterexample: a raw record that parses as malformed is NOT
excluded from the enriched list; with the ignore actions the parsed
object is appended like any other, so the output contains an entry
flagged `is_malformed`. -/
theorem create_enhanced_sagans_keeps_malformed_cx :
    create_enhanced_sagans (some [7]) sampleResultGet sampleGetMany [malformedRaw]
      = .ok c3Out
    ∧ c3Out.any (fun e => e.sagan.is_malformed) = true :=
  ⟨rfl, rfl⟩

/-- C3 (amended): parsing never drops a record and never raises: for
every successful enrichment the output carries exactly one entry per raw
record, in order, whose sagan is the parse of that record — malformed or
erroring records included (flagged by the parser, not excluded). -/
theorem create_enhanced_sagans_parses_every_record {Raw : Type}
    (argProbes : Option (List Nat)) (resultGet : Raw → Sagan)
    (getMany : List Nat → List Probe) (results : List Raw)
    (out : List EnhancedSagan)
    (h : create_enhanced_sagans argProbes resultGet getMany results = .ok out) :
    out.map EnhancedSagan.sagan = results.map resultGet := by
  have h' : attach_probes
      (build_probes_dict (getMany (resolved_probe_ids argProbes (results.map resultGet))))
      (results.map resultGet) = .ok out := h
  exact (attach_probes_ok _ _ _ h').1

/-- C3 witness: the amended theorem applied to the malformed-record
input. -/
theorem create_enhanced_sagans_parses_every_record_witness :
    c3Out.map EnhancedSagan.sagan = [malformedRaw].map sampleResultGet :=
  create_enhanced_sagans_parses_every_record (some [7]) sampleResultGet
    sampleGetMany [malformedRaw] c3Out rfl

/-- C4: when the measurement-detail lookup reports that the measurement
does not exist, `run` raises the fatal user-facing
`RipeAtlasToolsException` (the ResourceNotFound condition) with the
trace containing only the detail fetch — no results fetch, no print —
and the payload still empty (no rendering output). -/
theorem run_missing_measurement_aborts {Raw : Type} (args : RunArgs) (env : RunEnv Raw)
    (h : env.measurement_exists = false) :
    run args env
      = ([Event.fetchDetail], "",
          .error (.toolsException "That measurement id does not exist")) := by
  simp [run, h]

/-- C4 witness: the abort theorem at a concrete environment whose detail
lookup reports a missing measurement. -/
theorem run_missing_measurement_aborts_witness :
    run sampleArgs missingEnv
      = ([Event.fetchDetail], "",
          .error (.toolsException "That measurement id does not exist")) :=
  run_missing_measurement_aborts sampleArgs missingEnv rfl

/-- C5: when the results fetch returns an empty sequence, `run` raises
the fatal user-facing `RipeAtlasToolsException` (the EmptyResult
condition) before rendering: the payload is still empty (no start
marker, no traversal output, no end marker) and no print event
occurs. -/
theorem run_empty_results_aborts {Raw : Type} (args : RunArgs) (env : RunEnv Raw)
    (hex : env.measurement_exists = true) (hres : env.results = []) :
    run args env
      = ([Event.fetchDetail, Event.fetchResults], "",
          .error (.toolsException
            "There aren't any results available for that measurement")) := by
  simp [run, hex, hres]

/-- C5 witness: the abort theorem at a concrete environment whose
results fetch returns nothing. -/
theorem run_empty_results_aborts_witness :
    run sampleArgs emptyResultsEnv
      = ([Event.fetchDetail, Event.fetchResults], "",
          .error (.toolsException
            "There aren't any results available for that measurement")) :=
  run_empty_results_aborts sampleArgs emptyResultsEnv rfl rfl

/-- C6: the probe ids resolved are the explicitly supplied (non-empty)
list when one was given, otherwise exactly the distinct probe ids of the
parsed results; on success every returned entry carries the probe whose
id equals its own `probe_id`; and when some parsed result's probe id is
absent from the fetched metadata the enrichment fails with the
`KeyError` (`LookupError`-class) outcome instead of returning a result
without a probe. -/
theorem create_enhanced_sagans_probe_resolution {Raw : Type}
    (argProbes : Option (List Nat)) (resultGet : Raw → Sagan)
    (getMany : List Nat → List Probe) (results : List Raw) :
    (∀ l, argProbes = some l → l ≠ [] →
        resolved_probe_ids argProbes (results.map resultGet) = l)
    ∧ (argProbes = none →
        ∀ x, x ∈ resolved_probe_ids argProbes (results.map resultGet)
          ↔ x ∈ (results.map resultGet).map Sagan.probe_id)
    ∧ (∀ out, create_enhanced_sagans argProbes resultGet getMany results = .ok out →
        out.map EnhancedSagan.sagan = results.map resultGet
          ∧ ∀ e ∈ out, e.probe.id = e.sagan.probe_id)
    ∧ (∀ s ∈ results.map resultGet,
        s.probe_id ∉
          (getMany (resolved_probe_ids argProbes (results.map resultGet))).map Probe.id →
        isErrorOutcome (create_enhanced_sagans argProbes resultGet getMany results)
          = true) := by
  refine ⟨?_, ?_, ?_, ?_⟩
  · intro l hl hne
    subst hl
    have hfalse : l.isEmpty = false := by
      cases l with
      | nil => exact absurd rfl hne
      | cons a t => rfl
    simp [resolved_probe_ids, hfalse]
  · intro hl x
    subst hl
    simp [resolved_probe_ids, List.mem_dedup]
  · intro out hout
    have hout' : attach_probes
        (build_probes_dict (getMany (resolved_probe_ids argProbes (results.map resultGet))))
        (results.map resultGet) = .ok out := hout
    have hok := attach_probes_ok _ _ _ hout'
    refine ⟨hok.1, ?_⟩
    intro e he
    exact lookup_id_keyed _ (build_probes_dict_id_keyed _) _ _ (hok.2 e he)
  · intro s hs hnot
    have hnone : (build_probes_dict
        (getMany (resolved_probe_ids argProbes (results.map resultGet)))).lookup
          s.probe_id = none := by
      rw [lookup_eq_none_iff]
      intro hmem
      exact hnot ((mem_build_probes_dict_keys _ _).mp hmem)
    exact attach_probes_error _ _ ⟨s, hs, hnone⟩

/-- C6 witness: the resolution theorem applied at concrete inputs — an
explicit probe list, the no-list fallback, a successful attachment, and
an unresolvable probe id that yields the error outcome. -/
theorem create_enhanced_sagans_probe_resolution_witness :
    resolved_probe_ids (some [9]) ([c6Raw].map sampleResultGet) = [9]
    ∧ (9 ∈ resolved_probe_ids none ([c6Raw].map sampleResultGet)
        ↔ 9 ∈ ([c6Raw].map sampleResultGet).map Sagan.probe_id)
    ∧ (c6Out.map EnhancedSagan.sagan = [c6Raw].map sampleResultGet
        ∧ ∀ e ∈ c6Out, e.probe.id = e.sagan.probe_id)
    ∧ isErrorOutcome
        (create_enhanced_sagans (some [9]) sampleResultGet emptyGetMany [c6Raw])
        = true := by
  refine ⟨?_, ?_, ?_, ?_⟩
  · exact (create_enhanced_sagans_probe_resolution (some [9]) sampleResultGet
      sampleGetMany [c6Raw]).1 [9] rfl (by decide)
  · exact (create_enhanced_sagans_probe_resolution none sampleResultGet
      sampleGetMany [c6Raw]).2.1 rfl 9
  · exact (create_enhanced_sagans_probe_resolution (some [9]) sampleResultGet
      sampleGetMany [c6Raw]).2.2.1 c6Out rfl
  · exact (create_enhanced_sagans_probe_resolution (some [9]) sampleResultGet
      emptyGetMany [c6Raw]).2.2.2 (sampleResultGet c6Raw) (by decide) (by decide)

/-- C7 counterexample: a leaf element with non-empty renderer output is
NOT emitted as the indentation immediately followed by the output: the
format string interpolates one separator space, so with empty
indentation the payload is `" X"` where the claim predicts `"X"`. -/
theorem multi_level_render_leaf_cx :
    multi_level_render renderX "" (.leaf [sampleResult]) "" = " X"
    ∧ claimedLeafRender renderX [sampleResult] "" = "X"
    ∧ multi_level_render renderX "" (.leaf [sampleResult]) ""
        ≠ claimedLeafRender renderX [sampleResult] "" :=
  ⟨by decide, by decide, by decide⟩

/-- C7 (amended): each leaf element with non-empty renderer output is
emitted as the current indentation, ONE separator space, then the output
— with no newline appended by the traversal — and each element with
empty output contributes nothing, not even indentation. -/
theorem multi_level_render_leaf_amended (onResult : EnhancedSagan → String)
    (l : List EnhancedSagan) (payload indent : String) :
    multi_level_render onResult payload (.leaf l) indent
      = payload ++ amendedLeafRender onResult l indent :=
  renderLeaf_eq onResult l payload indent

/-- C8: with no aggregation requested (absent option or empty key list)
the value handed to the rendering traversal is the enriched sequence
itself, unchanged in content and order, wrapped as the leaf case. -/
theorem selectRenderInput_identity (ab : Option (List String))
    (aggregateFn : List AggregatorCall → List EnhancedSagan → AggData)
    (sagans : List EnhancedSagan) (hne : sagans ≠ [])
    (h : ab = none ∨ ab = some []) :
    selectRenderInput ab aggregateFn sagans = .ok (.leaf sagans) := by
  rcases h with h | h <;> subst h <;> simp [selectRenderInput]

/-- C8 witness: the identity theorem at a concrete non-empty result
list with no aggregation requested. -/
theorem selectRenderInput_identity_witness :
    selectRenderInput none (fun _ s => .leaf s) [sampleResult]
      = .ok (.leaf [sampleResult]) :=
  selectRenderInput_identity none (fun _ s => .leaf s) [sampleResult]
    (by simp) (Or.inl rfl)

/-- C9: on a node that is neither a mapping nor a list the traversal
returns the payload untouched — it appends nothing and raises nothing
(the function is total and falls through both `isinstance` checks). -/
theorem multi_level_render_other_noop (onResult : EnhancedSagan → String)
    (payload indent : String) :
    multi_level_render onResult payload .other indent = payload :=
  rfl

/-- C10: the traversal only ever appends to the accumulated payload: for
every node and indentation the payload before the call is a prefix of
the payload after it, the appended tail being the pure emission of the
subtree. -/
theorem multi_level_render_payload_preserved (onResult : EnhancedSagan → String)
    (payload : String) (t : AggData) (indent : String) :
    ∃ s, multi_level_render onResult payload t indent = payload ++ s :=
  ⟨emitData onResult t indent, multi_level_render_emit onResult t payload indent⟩

end Report
